import Mathlib

/-!
# Live event viewer: follow/freeze state machine of `internal/tui/tui.go`

Shallow embedding of `NewModel` and `model.Update`.

* Go values are passed explicitly: `Update` takes the model and returns the new one.
* The list widget (`bubbles/list`) and the viewport (`bubbles/viewport`) are external
  libraries.  They are parameters of the development: a record of the operations the
  source calls on them, over an arbitrary widget state type.
* `Highlight` and the constants `JSON`, `YAML`, `nbFormat` are declared in files of the
  package other than `tui.go`; they are parameters as well.  The `item` record, declared
  there too, is given by the fields `watchEvent` fills in.
* The `tea.Cmd` values returned by `Update` are effects scheduled by the runtime
  (re-arming `watchEvent`, widget commands).  They do not enter the model value and are
  not represented.
-/

namespace Tui

/-! ## Data model -/

/-- Theme name handed to the highlighter: `const theme = "solarized-dark"`. -/
def theme : String := "solarized-dark"

/-- Go `type format int`. -/
abbrev format := Int

/-- Display record built by `watchEvent`.  The struct is declared outside `tui.go`; the
fields are the ones `watchEvent` fills in (the raw `event` payload is left out, nothing in
`Update` reads it). -/
structure item where
  title : String
  description : String
  datetime : String
  sender : String
  state : String
  eventJSON : String
  eventYAML : String
deriving DecidableEq, Repr

/-- Binding of `bubbles/key`: the key names it reacts to and its disabled flag (the help
text plays no role in matching). -/
structure Binding where
  keys : List String
  disabled : Bool
deriving DecidableEq, Repr

/-- Function `key.Matches(k, b)`, with the key message given by its `String()` rendering:
some key name of the binding equals it and the binding is enabled. -/
def Matches (k : String) (b : Binding) : Bool :=
  b.keys.any (fun v => decide (k = v) && !b.disabled)

/-- Go `type listKeyMap struct`. -/
structure listKeyMap where
  enableFollow : Binding
  toggleJSONYAML : Binding
  toggleWordwrap : Binding
deriving DecidableEq, Repr

/-- Go `func newListKeyMap()`. -/
def newListKeyMap : listKeyMap where
  enableFollow := { keys := ["f"], disabled := false }
  toggleWordwrap := { keys := ["w"], disabled := false }
  toggleJSONYAML := { keys := ["m"], disabled := false }

/-- Messages delivered to `Update`: the three types its type switch distinguishes, and
`other` for every remaining `tea.Msg` (handled by the widgets only). -/
inductive Msg where
  | item (i : item)
  | WindowSizeMsg (Width Height : Int)
  | KeyMsg (k : String)
  | other (tag : Nat)
deriving DecidableEq, Repr

/-- Filter states reported by the list widget (`list.FilterState`). -/
inductive FilterState where
  | Unfiltered
  | Filtering
  | FilterApplied
deriving DecidableEq, Repr

/-- Operations of the external list widget used by `tui.go`, over a widget state `W`.
`Index` is a position in the list, hence a natural number. -/
structure ListWidget (W : Type) where
  New : List item → W
  Index : W → Nat
  Items : W → List item
  SelectedItem : W → Option item
  FilterState : W → FilterState
  SetItems : W → List item → W
  ResetSelected : W → W
  Update : W → Msg → W

/-- Go `teaList.Model` as the source sees it: the exported `Title` field, which `Update`
assigns directly, and the rest of the widget, reached through its methods only. -/
structure ListModel (W : Type) where
  Title : String
  widget : W

/-- Operations of the external viewport widget used by `Update`. -/
structure Viewport (V : Type) where
  New : V
  SetContent : V → String → V
  Update : V → Msg → V

/-- Everything `tui.go` uses that is declared outside it: the two widgets, the highlighter
`Highlight(text, lang, theme)` (an error is `Except.error`) and the format constants. -/
structure Deps (W V : Type) where
  list : ListWidget W
  view : Viewport V
  Highlight : String → String → String → Except String String
  YAML : format
  JSON : format
  nbFormat : format

/-- Go `type model struct` (`eventChan` only feeds `watchEvent` and is left out). -/
structure model (W V : Type) where
  eventList : ListModel W
  itemsBuffer : List item
  rawView : V
  keys : listKeyMap
  sideInfos : String
  terminalWidth : Int
  terminalHeight : Int
  maxItems : Int
  outputFormat : format
  followMode : Bool
  wordWrap : Bool

/-! ## `strings.ReplaceAll` -/

/-- Does `pat` start the list `s`? -/
def startsWith : List Char → List Char → Bool
  | [], _ => true
  | _ :: _, [] => false
  | p :: ps, c :: cs => decide (p = c) && startsWith ps cs

/-- Left-to-right replacement of the non-overlapping occurrences of a non-empty `old`.
The counter is the number of characters of a match still to be skipped. -/
def replaceFrom (old new : List Char) : Nat → List Char → List Char
  | _, [] => []
  | k + 1, _ :: cs => replaceFrom old new k cs
  | 0, c :: cs =>
    if startsWith old (c :: cs) then new ++ replaceFrom old new (old.length - 1) cs
    else c :: replaceFrom old new 0 cs

/-- Go `strings.ReplaceAll(s, old, new)` for a non-empty `old`. -/
def ReplaceAll (s old new : String) : String :=
  String.mk (replaceFrom old.data new.data 0 s.data)

/-! ## `NewModel` and `Update` -/

variable {W V : Type}

/-- Go `func NewModel(eventChan, maxItems)`: an empty list titled "Events", a fresh
viewport, the key map, follow mode on; every other field has its zero value. -/
def NewModel (D : Deps W V) (maxItems : Int) : model W V where
  eventList := { Title := "Events", widget := D.list.New [] }
  itemsBuffer := []
  rawView := D.view.New
  keys := newListKeyMap
  sideInfos := ""
  terminalWidth := 0
  terminalHeight := 0
  maxItems := maxItems
  outputFormat := 0
  followMode := true
  wordWrap := false

/-- Lines 138-146 of `Update`: a selection below the top switches follow mode off, then
the title is set from the mode. -/
def refreshMode (D : Deps W V) (m : model W V) : model W V :=
  let m := if D.list.Index m.eventList.widget > 0 then { m with followMode := false } else m
  if !m.followMode then
    { m with eventList := { m.eventList with Title := "Events (frozen)" } }
  else
    { m with eventList := { m.eventList with Title := "Events" } }

/-- Lines 150-153: prepend the item, drop the last element when the length exceeds
`maxItems`. -/
def push (maxItems : Int) (buf : List item) (x : item) : List item :=
  let buf := x :: buf
  if (buf.length : Int) > maxItems then buf.take (buf.length - 1) else buf

/-- Lines 148-181, the type switch.  The flag of the result is `true` on the one path
that leaves `Update` at once (`return m, nil`). -/
def dispatch (D : Deps W V) (m : model W V) : Msg → model W V × Bool
  | .item x =>
    let m := { m with itemsBuffer := push m.maxItems m.itemsBuffer x }
    let m :=
      if m.followMode then
        { m with eventList := { m.eventList with
            widget := D.list.SetItems m.eventList.widget m.itemsBuffer } }
      else m
    (m, false)
  | .WindowSizeMsg w h => ({ m with terminalWidth := w, terminalHeight := h }, false)
  | .KeyMsg k =>
    if D.list.FilterState m.eventList.widget = FilterState.Filtering then (m, false)
    else if Matches k m.keys.enableFollow then
      ({ m with followMode := true,
                eventList := { m.eventList with
                  widget := D.list.ResetSelected m.eventList.widget } }, true)
    else if Matches k m.keys.toggleWordwrap then ({ m with wordWrap := !m.wordWrap }, false)
    else if Matches k m.keys.toggleJSONYAML then
      ({ m with outputFormat := Int.tmod (m.outputFormat + 1) D.nbFormat }, false)
    else (m, false)
  | .other _ => (m, false)

/-- Text of step 2 of the detail pane: the serialisation, rewrapped when word wrap is on
(lines 190-193 and 200-203). -/
def wrapText (wordWrap : Bool) (s : String) : String :=
  if wordWrap then ReplaceAll s "\\n" "  \\\n" else s

/-- Lines 194-198 and 204-208: highlight, and on error show the text itself. -/
def showText (D : Deps W V) (v : V) (text lang : String) : V :=
  match D.Highlight text lang theme with
  | .error _ => D.view.SetContent v text
  | .ok info => D.view.SetContent v info

/-- Lines 187-210: refresh the detail pane from the selected item. -/
def renderDetail (D : Deps W V) (m : model W V) : model W V :=
  match D.list.SelectedItem m.eventList.widget with
  | none => m
  | some sel =>
    if m.outputFormat = D.YAML then
      let text := wrapText m.wordWrap sel.eventYAML
      { m with sideInfos := text, rawView := showText D m.rawView text "yaml" }
    else if m.outputFormat = D.JSON then
      let text := wrapText m.wordWrap sel.eventJSON
      { m with sideInfos := text, rawView := showText D m.rawView text "json" }
    else m

/-- Go `func (m model) Update(msg tea.Msg)`, the returned model. -/
def Update (D : Deps W V) (m : model W V) (msg : Msg) : model W V :=
  match dispatch D (refreshMode D m) msg with
  | (m, true) => m
  | (m, false) =>
    let m := { m with eventList := { m.eventList with
                 widget := D.list.Update m.eventList.widget msg } }
    let m := renderDetail D m
    { m with rawView := D.view.Update m.rawView msg }

/-- Model after processing the messages in order, one `Update` call each. -/
def run (D : Deps W V) (m : model W V) (msgs : List Msg) : model W V :=
  msgs.foldl (Update D) m

/-! ## A small instance of the widgets, to run scenarios -/

/-- State of a minimal list widget: the item collection, the cursor and whether the
filter prompt is open. -/
structure SimpleList where
  items : List item
  cursor : Nat
  filtering : Bool
deriving DecidableEq, Repr

/-- Key handling of the minimal list: with the filter prompt open only "esc" is
interpreted (it closes the prompt); otherwise "down" and "up" move the cursor inside the
list and "/" opens the prompt.  Other messages leave the widget as it is. -/
def SimpleList.Update (w : SimpleList) : Msg → SimpleList
  | .KeyMsg k =>
    if w.filtering then
      if k = "esc" then { w with filtering := false } else w
    else if k = "down" then
      if w.cursor + 1 < w.items.length then { w with cursor := w.cursor + 1 } else w
    else if k = "up" then { w with cursor := w.cursor - 1 }
    else if k = "/" then { w with filtering := true }
    else w
  | _ => w

/-- Minimal list widget: the selected item is the one at the cursor. -/
def simpleList : ListWidget SimpleList where
  New xs := { items := xs, cursor := 0, filtering := false }
  Index w := w.cursor
  Items w := w.items
  SelectedItem w := w.items.get? w.cursor
  FilterState w := if w.filtering then FilterState.Filtering else FilterState.Unfiltered
  SetItems w xs := { w with items := xs }
  ResetSelected w := { w with cursor := 0 }
  Update := SimpleList.Update

/-- Minimal viewport: its state is the content last set. -/
def simpleView : Viewport String where
  New := ""
  SetContent _ s := s
  Update v _ := v

/-- Dependencies used in the scenarios: the minimal widgets, a highlighter that always
fails, and the enumeration `JSON = 0`, `YAML = 1`, `nbFormat = 2`. -/
def demo : Deps SimpleList String where
  list := simpleList
  view := simpleView
  Highlight _ _ _ := .error "highlighter unavailable"
  YAML := 1
  JSON := 0
  nbFormat := 2

/-- Item whose tag is `t`, with short serialisations. -/
def mkItem (t : String) : item where
  title := t
  description := "job"
  datetime := "2024-01-01 00:00"
  sender := "master"
  state := ""
  eventJSON := t ++ "\\nj"
  eventYAML := t ++ "\\ny"

/-- Scenario state: capacity 3 and the items A, B, C, D pushed in this order. -/
def afterABCD : model SimpleList String :=
  run demo (NewModel demo 3)
    [.item (mkItem "A"), .item (mkItem "B"), .item (mkItem "C"), .item (mkItem "D")]

/-- State after moving the selection to index 1 in `afterABCD`. -/
def movedDown : model SimpleList String :=
  Update demo afterABCD (.KeyMsg "down")

/-- State after the item E arrives in `movedDown`. -/
def frozenE : model SimpleList String :=
  Update demo movedDown (.item (mkItem "E"))

/-- State after opening the filter prompt in `afterABCD`. -/
def filteringABCD : model SimpleList String :=
  Update demo afterABCD (.KeyMsg "/")

/-! ## Notions used to state the properties -/

/-- Does `Update` take the enable-follow branch on this message: a key press matching the
binding while the list is not filtering (lines 167-175)? -/
def takesEnableFollow (D : Deps W V) (m : model W V) : Msg → Bool
  | .KeyMsg k =>
    decide (D.list.FilterState m.eventList.widget ≠ FilterState.Filtering)
      && Matches k m.keys.enableFollow
  | _ => false

/-- Modelled from the spec: the constants `JSON`, `YAML` and `nbFormat` are declared
outside `tui.go`.  Section 3 calls the format a closed enumeration of JSON and YAML that is
toggled cyclically: the two constants are the values 0 and 1, in either order, and
`nbFormat` is their number. -/
def Deps.formatsEnumerated (D : Deps W V) : Prop :=
  D.nbFormat = 2 ∧ ((D.JSON = 0 ∧ D.YAML = 1) ∨ (D.JSON = 1 ∧ D.YAML = 0))

/-- Rewrapped text in the words of the specification: reading from the left, every
two-character sequence backslash, n becomes two spaces, a backslash and a newline; every
other character is kept. -/
def rewrapSpec : List Char → List Char
  | [] => []
  | [c] => [c]
  | a :: b :: rest =>
    if a = '\\' ∧ b = 'n' then ' ' :: ' ' :: '\\' :: '\n' :: rewrapSpec rest
    else a :: rewrapSpec (b :: rest)

/-- Pre-highlight text in the words of the specification: the serialisation verbatim when
word wrap is off, rewrapped when it is on. -/
def preHighlightSpec (wordWrap : Bool) (s : String) : String :=
  if wordWrap then String.mk (rewrapSpec s.data) else s

end Tui

namespace Tui

variable {W V : Type}

/-! ## Field-by-field description of `Update` -/

theorem renderDetail_eventList (D : Deps W V) (m : model W V) :
    (renderDetail D m).eventList = m.eventList := by
  unfold renderDetail
  split
  · rfl
  · split_ifs <;> rfl

theorem renderDetail_itemsBuffer (D : Deps W V) (m : model W V) :
    (renderDetail D m).itemsBuffer = m.itemsBuffer := by
  unfold renderDetail
  split
  · rfl
  · split_ifs <;> rfl

theorem renderDetail_maxItems (D : Deps W V) (m : model W V) :
    (renderDetail D m).maxItems = m.maxItems := by
  unfold renderDetail
  split
  · rfl
  · split_ifs <;> rfl

theorem renderDetail_keys (D : Deps W V) (m : model W V) :
    (renderDetail D m).keys = m.keys := by
  unfold renderDetail
  split
  · rfl
  · split_ifs <;> rfl

theorem renderDetail_outputFormat (D : Deps W V) (m : model W V) :
    (renderDetail D m).outputFormat = m.outputFormat := by
  unfold renderDetail
  split
  · rfl
  · split_ifs <;> rfl

theorem renderDetail_followMode (D : Deps W V) (m : model W V) :
    (renderDetail D m).followMode = m.followMode := by
  unfold renderDetail
  split
  · rfl
  · split_ifs <;> rfl

theorem renderDetail_wordWrap (D : Deps W V) (m : model W V) :
    (renderDetail D m).wordWrap = m.wordWrap := by
  unfold renderDetail
  split
  · rfl
  · split_ifs <;> rfl

theorem refreshMode_widget (D : Deps W V) (m : model W V) :
    (refreshMode D m).eventList.widget = m.eventList.widget := by
  simp only [refreshMode]
  split_ifs <;> rfl

theorem refreshMode_itemsBuffer (D : Deps W V) (m : model W V) :
    (refreshMode D m).itemsBuffer = m.itemsBuffer := by
  simp only [refreshMode]
  split_ifs <;> rfl

theorem refreshMode_maxItems (D : Deps W V) (m : model W V) :
    (refreshMode D m).maxItems = m.maxItems := by
  simp only [refreshMode]
  split_ifs <;> rfl

theorem refreshMode_keys (D : Deps W V) (m : model W V) :
    (refreshMode D m).keys = m.keys := by
  simp only [refreshMode]
  split_ifs <;> rfl

theorem refreshMode_outputFormat (D : Deps W V) (m : model W V) :
    (refreshMode D m).outputFormat = m.outputFormat := by
  simp only [refreshMode]
  split_ifs <;> rfl

theorem refreshMode_wordWrap (D : Deps W V) (m : model W V) :
    (refreshMode D m).wordWrap = m.wordWrap := by
  simp only [refreshMode]
  split_ifs <;> rfl

theorem refreshMode_rawView (D : Deps W V) (m : model W V) :
    (refreshMode D m).rawView = m.rawView := by
  simp only [refreshMode]
  split_ifs <;> rfl

/-- Mode after lines 138-140: on exactly when it was on and the selection is at the top. -/
theorem refreshMode_followMode (D : Deps W V) (m : model W V) :
    (refreshMode D m).followMode
      = (m.followMode && decide (D.list.Index m.eventList.widget = 0)) := by
  unfold refreshMode
  by_cases h : D.list.Index m.eventList.widget > 0
  · have h0 : D.list.Index m.eventList.widget ≠ 0 := by omega
    simp [h, h0]
  · have h0 : D.list.Index m.eventList.widget = 0 := by omega
    cases hf : m.followMode <;> simp [h0, hf]

/-- Title after lines 142-146. -/
theorem refreshMode_title (D : Deps W V) (m : model W V) :
    (refreshMode D m).eventList.Title
      = if (refreshMode D m).followMode then "Events" else "Events (frozen)" := by
  unfold refreshMode
  by_cases h : D.list.Index m.eventList.widget > 0
  · simp [h]
  · cases hf : m.followMode <;> simp [h, hf]

/-- The model `Update` returns when the type switch does not return early. -/
theorem Update_of_dispatch_false (D : Deps W V) (m m1 : model W V) (msg : Msg)
    (h : dispatch D (refreshMode D m) msg = (m1, false)) :
    Update D m msg =
      { renderDetail D { m1 with eventList := { m1.eventList with
            widget := D.list.Update m1.eventList.widget msg } } with
        rawView := D.view.Update (renderDetail D { m1 with eventList := { m1.eventList with
            widget := D.list.Update m1.eventList.widget msg } }).rawView msg } := by
  unfold Update
  rw [h]

/-- The model `Update` returns on the early return of the enable-follow branch. -/
theorem Update_of_dispatch_true (D : Deps W V) (m m1 : model W V) (msg : Msg)
    (h : dispatch D (refreshMode D m) msg = (m1, true)) :
    Update D m msg = m1 := by
  unfold Update
  rw [h]

/-- The type switch never changes `maxItems`. -/
theorem dispatch_maxItems (D : Deps W V) (m : model W V) (msg : Msg) :
    (dispatch D m msg).1.maxItems = m.maxItems := by
  cases msg <;> simp only [dispatch] <;> (try split_ifs) <;> rfl

/-- The type switch never changes the key map. -/
theorem dispatch_keys (D : Deps W V) (m : model W V) (msg : Msg) :
    (dispatch D m msg).1.keys = m.keys := by
  cases msg <;> simp only [dispatch] <;> (try split_ifs) <;> rfl

/-- Fields of the result of `Update` that the tail of the function (lines 183-215) leaves
as the type switch produced them. -/
theorem Update_fields (D : Deps W V) (m : model W V) (msg : Msg) :
    (Update D m msg).maxItems = (dispatch D (refreshMode D m) msg).1.maxItems ∧
    (Update D m msg).itemsBuffer = (dispatch D (refreshMode D m) msg).1.itemsBuffer ∧
    (Update D m msg).keys = (dispatch D (refreshMode D m) msg).1.keys ∧
    (Update D m msg).outputFormat = (dispatch D (refreshMode D m) msg).1.outputFormat ∧
    (Update D m msg).followMode = (dispatch D (refreshMode D m) msg).1.followMode ∧
    (Update D m msg).wordWrap = (dispatch D (refreshMode D m) msg).1.wordWrap ∧
    (Update D m msg).eventList.Title = (dispatch D (refreshMode D m) msg).1.eventList.Title := by
  rcases hd : dispatch D (refreshMode D m) msg with ⟨m1, b⟩
  cases b
  · rw [Update_of_dispatch_false D m m1 msg hd]
    simp [renderDetail_maxItems, renderDetail_itemsBuffer, renderDetail_keys,
      renderDetail_outputFormat, renderDetail_followMode, renderDetail_wordWrap,
      renderDetail_eventList]
  · rw [Update_of_dispatch_true D m m1 msg hd]
    simp

theorem Update_maxItems (D : Deps W V) (m : model W V) (msg : Msg) :
    (Update D m msg).maxItems = m.maxItems := by
  rw [(Update_fields D m msg).1, dispatch_maxItems, refreshMode_maxItems]

theorem Update_keys (D : Deps W V) (m : model W V) (msg : Msg) :
    (Update D m msg).keys = m.keys := by
  rw [(Update_fields D m msg).2.2.1, dispatch_keys, refreshMode_keys]

/-- History buffer after an item message: the push of lines 150-153. -/
theorem Update_itemsBuffer_item (D : Deps W V) (m : model W V) (x : item) :
    (Update D m (.item x)).itemsBuffer = push m.maxItems m.itemsBuffer x := by
  rw [(Update_fields D m (.item x)).2.1]
  simp only [dispatch]
  split_ifs <;> simp [refreshMode_maxItems, refreshMode_itemsBuffer]

/-- History buffer after any message: only an item message changes it. -/
theorem Update_itemsBuffer (D : Deps W V) (m : model W V) (msg : Msg) :
    (Update D m msg).itemsBuffer =
      match msg with
      | .item x => push m.maxItems m.itemsBuffer x
      | _ => m.itemsBuffer := by
  cases msg with
  | item x => exact Update_itemsBuffer_item D m x
  | WindowSizeMsg w h =>
    rw [(Update_fields D m _).2.1]; simp [dispatch, refreshMode_itemsBuffer]
  | KeyMsg k =>
    rw [(Update_fields D m _).2.1]; simp only [dispatch]
    split_ifs <;> simp [refreshMode_itemsBuffer]
  | other t =>
    rw [(Update_fields D m _).2.1]; simp [dispatch, refreshMode_itemsBuffer]

/-! ## The bounded history buffer -/

/-- A push onto a buffer below capacity keeps every element. -/
theorem push_below (n : Int) (buf : List item) (x : item) (h : (buf.length : Int) < n) :
    push n buf x = x :: buf := by
  have h0 : ¬ (((x :: buf).length : Int) > n) := by
    simp only [List.length_cons]; push_cast; omega
  simp only [push, h0, if_false]

/-- A push onto a buffer at capacity drops the last element of the old buffer. -/
theorem push_full (n : Int) (buf : List item) (x : item) (hn : 1 ≤ n)
    (h : (buf.length : Int) = n) : push n buf x = x :: buf.dropLast := by
  rw [List.dropLast_eq_take]
  simp only [push, List.length_cons, Nat.add_sub_cancel]
  rw [if_pos (by push_cast; omega)]
  obtain ⟨k, hk⟩ : ∃ k, buf.length = k + 1 := ⟨buf.length - 1, by omega⟩
  rw [hk, List.take_succ_cons, Nat.add_sub_cancel]

/-- A push keeps the length within the capacity. -/
theorem push_length_le (n : Int) (buf : List item) (x : item)
    (h : (buf.length : Int) ≤ n) : ((push n buf x).length : Int) ≤ n := by
  simp only [push]
  split_ifs with h1
  · simp only [List.length_cons, Nat.add_sub_cancel, List.length_take]
    have : min buf.length (buf.length + 1) = buf.length := by omega
    rw [this]; exact h
  · omega

end Tui

namespace Tui

variable {W V : Type}

/-- With a capacity of at least 1 the pushed item is the first of the new buffer. -/
theorem push_head (n : Int) (buf : List item) (x : item) (hn : 1 ≤ n) :
    (push n buf x).head? = some x := by
  simp only [push]
  split_ifs with h
  · cases buf with
    | nil => simp only [List.length_cons, List.length_nil] at h; omega
    | cons y ys => simp
  · rfl

/-- One `Update` call keeps the capacity and keeps the buffer within it. -/
theorem Update_preserves_bound (D : Deps W V) (m : model W V) (msg : Msg)
    (h : (m.itemsBuffer.length : Int) ≤ m.maxItems) :
    ((Update D m msg).itemsBuffer.length : Int) ≤ (Update D m msg).maxItems := by
  rw [Update_maxItems, Update_itemsBuffer]
  cases msg with
  | item x => exact push_length_le _ _ _ h
  | WindowSizeMsg wd ht => exact h
  | KeyMsg k => exact h
  | other t => exact h

/-- Any run keeps the capacity and keeps the buffer within it. -/
theorem run_preserves_bound (D : Deps W V) (msgs : List Msg) :
    ∀ m : model W V, (m.itemsBuffer.length : Int) ≤ m.maxItems →
      (run D m msgs).maxItems = m.maxItems ∧
      ((run D m msgs).itemsBuffer.length : Int) ≤ m.maxItems := by
  induction msgs with
  | nil => intro m h; exact ⟨rfl, h⟩
  | cons msg rest ih =>
    intro m h
    have hstep := Update_preserves_bound D m msg h
    have := ih (Update D m msg) hstep
    simp only [run, List.foldl_cons] at this ⊢
    rw [Update_maxItems] at this
    exact this

/-- Claim C1: starting from `NewModel` with `maxItems = n`, `n ≥ 1`, after any finite
sequence of `Update` calls with arbitrary messages the model still has `maxItems = n` and
its history buffer holds at most `n` items. -/
theorem history_buffer_bounded (D : Deps W V) (n : Int) (hn : 1 ≤ n) (msgs : List Msg) :
    (run D (NewModel D n) msgs).maxItems = n ∧
    ((run D (NewModel D n) msgs).itemsBuffer.length : Int) ≤ n := by
  have h0 : (((NewModel D n).itemsBuffer.length : Nat) : Int) ≤ (NewModel D n).maxItems := by
    simp only [NewModel, List.length_nil]; push_cast; omega
  exact run_preserves_bound D msgs (NewModel D n) h0

/-- Witness for C1: capacity 3 and five messages, four of them items. -/
theorem history_buffer_bounded_witness :
    (1 : Int) ≤ 3 ∧
    (run demo (NewModel demo 3)
      [.item (mkItem "A"), .item (mkItem "B"), .KeyMsg "down", .item (mkItem "C"),
       .item (mkItem "D")]).maxItems = 3 ∧
    ((run demo (NewModel demo 3)
      [.item (mkItem "A"), .item (mkItem "B"), .KeyMsg "down", .item (mkItem "C"),
       .item (mkItem "D")]).itemsBuffer.length : Int) ≤ 3 :=
  ⟨by decide, history_buffer_bounded demo 3 (by decide) _⟩

/-- Claim C2: for a model with `maxItems ≥ 1` whose buffer is within capacity, processing
an item `x` (follow mode on or off) leaves the buffer equal to `x` followed by the old
buffer when the old buffer was below capacity, and to `x` followed by the old buffer
without its last element when it was at capacity; in both cases `x` is at index 0. -/
theorem push_prepends_and_evicts_oldest (D : Deps W V) (m : model W V) (x : item)
    (hn : 1 ≤ m.maxItems) (hlen : (m.itemsBuffer.length : Int) ≤ m.maxItems) :
    ((m.itemsBuffer.length : Int) < m.maxItems →
      (Update D m (.item x)).itemsBuffer = x :: m.itemsBuffer) ∧
    ((m.itemsBuffer.length : Int) = m.maxItems →
      (Update D m (.item x)).itemsBuffer = x :: m.itemsBuffer.dropLast) ∧
    (Update D m (.item x)).itemsBuffer.head? = some x := by
  rw [Update_itemsBuffer_item]
  refine ⟨fun h => push_below _ _ _ h, fun h => push_full _ _ _ hn h, ?_⟩
  rcases lt_or_eq_of_le hlen with h | h
  · rw [push_below _ _ _ h]; rfl
  · rw [push_full _ _ _ hn h]; rfl

/-- Witness for C2: the buffer D, C, B at capacity 3 receives E and becomes E, D, C. -/
theorem push_prepends_and_evicts_oldest_witness :
    (1 : Int) ≤ afterABCD.maxItems ∧
    (afterABCD.itemsBuffer.length : Int) = afterABCD.maxItems ∧
    (Update demo afterABCD (.item (mkItem "E"))).itemsBuffer
      = mkItem "E" :: afterABCD.itemsBuffer.dropLast ∧
    (Update demo afterABCD (.item (mkItem "E"))).itemsBuffer
      = [mkItem "E", mkItem "D", mkItem "C"] :=
  ⟨by decide, by decide,
   (push_prepends_and_evicts_oldest demo afterABCD (mkItem "E") (by decide) (by decide)).2.1
     (by decide),
   by decide⟩

/-- List widget after an item message, by the mode established at lines 138-140: in follow
mode `SetItems` receives the buffer as it is after the push, otherwise the widget is only
given the message. -/
theorem Update_widget_item (D : Deps W V) (m : model W V) (x : item) :
    (Update D m (.item x)).eventList.widget =
      if m.followMode && decide (D.list.Index m.eventList.widget = 0) then
        D.list.Update
          (D.list.SetItems m.eventList.widget (push m.maxItems m.itemsBuffer x)) (.item x)
      else D.list.Update m.eventList.widget (.item x) := by
  have hd : dispatch D (refreshMode D m) (.item x) =
      ((dispatch D (refreshMode D m) (.item x)).1, false) := rfl
  rw [Update_of_dispatch_false D m _ _ hd]
  simp only [renderDetail_eventList]
  simp only [dispatch, refreshMode_followMode, refreshMode_widget, refreshMode_maxItems,
    refreshMode_itemsBuffer]
  split_ifs <;> simp only [refreshMode_widget]

/-- Mode after an item message: on exactly when it was on with the selection at the top. -/
theorem Update_followMode_item (D : Deps W V) (m : model W V) (x : item) :
    (Update D m (.item x)).followMode =
      (m.followMode && decide (D.list.Index m.eventList.widget = 0)) := by
  rw [(Update_fields D m _).2.2.2.2.1]
  simp only [dispatch]
  split_ifs <;> simp [refreshMode_followMode]

/-- Claim C3: in follow mode with the selection at index 0, processing an item hands
`SetItems` exactly the history buffer as it is after the push; for a list widget whose
item collection is what `SetItems` stored and is left alone by its own handling of item
messages, the visible list then equals the buffer, and with a capacity of at least 1 the
new item is at its top. -/
theorem resync_while_following (D : Deps W V) (m : model W V) (x : item)
    (hset : ∀ w xs, D.list.Items (D.list.SetItems w xs) = xs)
    (hupd : ∀ w i, D.list.Items (D.list.Update w (.item i)) = D.list.Items w)
    (hf : m.followMode = true) (hi : D.list.Index m.eventList.widget = 0) :
    (Update D m (.item x)).eventList.widget =
      D.list.Update
        (D.list.SetItems m.eventList.widget (Update D m (.item x)).itemsBuffer) (.item x) ∧
    D.list.Items (Update D m (.item x)).eventList.widget
      = (Update D m (.item x)).itemsBuffer ∧
    (1 ≤ m.maxItems →
      (D.list.Items (Update D m (.item x)).eventList.widget).head? = some x) := by
  have hw := Update_widget_item D m x
  simp only [hf, hi, decide_True, Bool.and_self, if_true] at hw
  have hb := Update_itemsBuffer_item D m x
  refine ⟨by rw [hw, hb], by rw [hw, hb, hupd, hset], ?_⟩
  intro hn
  rw [hw, hupd, hset]
  exact push_head _ _ _ hn

/-- Witness for C3: capacity 3, the items A, B, C, D pushed in this order while following;
the buffer and the visible list are both D, C, B. -/
theorem resync_while_following_witness :
    (run demo (NewModel demo 3) [.item (mkItem "A"), .item (mkItem "B"),
        .item (mkItem "C")]).followMode = true ∧
    demo.list.Index (run demo (NewModel demo 3) [.item (mkItem "A"), .item (mkItem "B"),
        .item (mkItem "C")]).eventList.widget = 0 ∧
    demo.list.Items afterABCD.eventList.widget = afterABCD.itemsBuffer ∧
    afterABCD.itemsBuffer = [mkItem "D", mkItem "C", mkItem "B"] ∧
    demo.list.Items afterABCD.eventList.widget = [mkItem "D", mkItem "C", mkItem "B"] ∧
    afterABCD.followMode = true :=
  ⟨by decide, by decide,
   (resync_while_following demo
      (run demo (NewModel demo 3) [.item (mkItem "A"), .item (mkItem "B"), .item (mkItem "C")])
      (mkItem "D") (fun _ _ => rfl) (fun _ _ => rfl) (by decide) (by decide)).2.1,
   by decide, by decide, by decide⟩

end Tui

namespace Tui

variable {W V : Type}

/-- Counterexample to C4 as stated: in the scenario of the claim (buffer and visible list
D, C, B with index 1 selected, then E arrives) the buffer becomes E, D, C and the visible
list and the index stay as they were, but the selected item, before and after, is C, the
item at index 1, and not B. -/
theorem freeze_scenario_selects_C_not_B :
    movedDown.itemsBuffer = [mkItem "D", mkItem "C", mkItem "B"] ∧
    demo.list.Items movedDown.eventList.widget = [mkItem "D", mkItem "C", mkItem "B"] ∧
    demo.list.Index movedDown.eventList.widget = 1 ∧
    demo.list.SelectedItem movedDown.eventList.widget = some (mkItem "C") ∧
    frozenE.itemsBuffer = [mkItem "E", mkItem "D", mkItem "C"] ∧
    demo.list.Items frozenE.eventList.widget = [mkItem "D", mkItem "C", mkItem "B"] ∧
    demo.list.Index frozenE.eventList.widget = 1 ∧
    demo.list.SelectedItem frozenE.eventList.widget = some (mkItem "C") ∧
    demo.list.SelectedItem frozenE.eventList.widget ≠ some (mkItem "B") := by
  decide

/-- Claim C4, amended: when follow mode is off or the selection index is nonzero at the
start of `Update`, processing an item never calls `SetItems`: the widget is only given the
message.  For a list widget whose own handling of item messages leaves its item
collection, index and selected item alone, the visible list and the selection are exactly
as before, while the history buffer is updated by the push and the returned model is
frozen.  (In the scenario of the claim the item selected at index 1 of D, C, B is C.) -/
theorem freeze_preserves_visible_list (D : Deps W V) (m : model W V) (x : item)
    (hitems : ∀ w i, D.list.Items (D.list.Update w (.item i)) = D.list.Items w)
    (hidx : ∀ w i, D.list.Index (D.list.Update w (.item i)) = D.list.Index w)
    (hsel : ∀ w i, D.list.SelectedItem (D.list.Update w (.item i)) = D.list.SelectedItem w)
    (hfrozen : m.followMode = false ∨ D.list.Index m.eventList.widget ≠ 0) :
    (Update D m (.item x)).eventList.widget = D.list.Update m.eventList.widget (.item x) ∧
    D.list.Items (Update D m (.item x)).eventList.widget = D.list.Items m.eventList.widget ∧
    D.list.Index (Update D m (.item x)).eventList.widget = D.list.Index m.eventList.widget ∧
    D.list.SelectedItem (Update D m (.item x)).eventList.widget
      = D.list.SelectedItem m.eventList.widget ∧
    (Update D m (.item x)).itemsBuffer = push m.maxItems m.itemsBuffer x ∧
    (Update D m (.item x)).followMode = false := by
  have hmode : (m.followMode && decide (D.list.Index m.eventList.widget = 0)) = false := by
    rcases hfrozen with h | h
    · simp [h]
    · simp [h]
  have hw := Update_widget_item D m x
  rw [hmode] at hw
  simp only [Bool.false_eq_true, if_false] at hw
  refine ⟨hw, ?_, ?_, ?_, Update_itemsBuffer_item D m x, ?_⟩
  · rw [hw, hitems]
  · rw [hw, hidx]
  · rw [hw, hsel]
  · rw [Update_followMode_item, hmode]

/-- Witness for C4 (amended): from buffer and visible list D, C, B with index 1 selected,
E arrives; the buffer becomes E, D, C, the visible list is still D, C, B and C is still
selected. -/
theorem freeze_preserves_visible_list_witness :
    (movedDown.followMode = false ∨ demo.list.Index movedDown.eventList.widget ≠ 0) ∧
    demo.list.Items movedDown.eventList.widget = [mkItem "D", mkItem "C", mkItem "B"] ∧
    (Update demo movedDown (.item (mkItem "E"))).itemsBuffer
      = [mkItem "E", mkItem "D", mkItem "C"] ∧
    demo.list.Items (Update demo movedDown (.item (mkItem "E"))).eventList.widget
      = [mkItem "D", mkItem "C", mkItem "B"] ∧
    demo.list.SelectedItem (Update demo movedDown (.item (mkItem "E"))).eventList.widget
      = some (mkItem "C") ∧
    demo.list.Index (Update demo movedDown (.item (mkItem "E"))).eventList.widget
      = demo.list.Index movedDown.eventList.widget :=
  ⟨by decide, by decide, by decide, by decide, by decide,
   (freeze_preserves_visible_list demo movedDown (mkItem "E")
      (fun _ _ => rfl) (fun _ _ => rfl) (fun _ _ => rfl) (by decide)).2.2.1⟩

/-- Mode returned by `Update`: the enable-follow branch switches it on; on every other path
it is on exactly when it was on with the selection at the top at the start of the call. -/
theorem Update_followMode (D : Deps W V) (m : model W V) (msg : Msg) :
    (Update D m msg).followMode =
      if takesEnableFollow D m msg then true
      else (m.followMode && decide (D.list.Index m.eventList.widget = 0)) := by
  cases msg with
  | item x => rw [Update_followMode_item]; simp [takesEnableFollow]
  | WindowSizeMsg wd ht =>
    rw [(Update_fields D m _).2.2.2.2.1]
    simp [dispatch, takesEnableFollow, refreshMode_followMode]
  | KeyMsg k =>
    rw [(Update_fields D m _).2.2.2.2.1]
    simp only [dispatch, takesEnableFollow, refreshMode_widget, refreshMode_keys]
    by_cases hf : D.list.FilterState m.eventList.widget = FilterState.Filtering
    · simp [hf, refreshMode_followMode]
    · by_cases hk : Matches k m.keys.enableFollow = true
      · simp [hf, hk]
      · have hk0 : Matches k m.keys.enableFollow = false := by simpa using hk
        simp only [hf, hk0, if_false, Bool.and_false, Bool.false_eq_true]
        split_ifs <;> simp [refreshMode_followMode]
  | other t =>
    rw [(Update_fields D m _).2.2.2.2.1]
    simp [dispatch, takesEnableFollow, refreshMode_followMode]

/-- Counterexample to C5 as stated: follow mode on, selection at index 0, the key "down"
moves the selection to index 1, and the model returned by that same `Update` call still
has `followMode = true`. -/
theorem same_step_freeze_fails :
    afterABCD.followMode = true ∧
    demo.list.Index afterABCD.eventList.widget = 0 ∧
    demo.list.Index (Update demo afterABCD (.KeyMsg "down")).eventList.widget = 1 ∧
    (Update demo afterABCD (.KeyMsg "down")).followMode = true := by
  decide

/-- Claim C5, amended: with follow mode on and the selection at index 0, the model
returned by the `Update` call whose message moves the selection to a nonzero index still
has `followMode = true`; the model returned by the next `Update` call has
`followMode = false`, whatever message that call processes, unless it takes the
enable-follow branch.  The transition happens at the start of the step after the one that
moved the selection. -/
theorem freeze_on_next_step (D : Deps W V) (m : model W V) (msg : Msg)
    (hf : m.followMode = true) (hi : D.list.Index m.eventList.widget = 0)
    (hmove : D.list.Index (Update D m msg).eventList.widget ≠ 0) :
    (Update D m msg).followMode = true ∧
    ∀ next : Msg, takesEnableFollow D (Update D m msg) next = false →
      (Update D (Update D m msg) next).followMode = false := by
  constructor
  · rw [Update_followMode]
    split_ifs
    · rfl
    · simp [hf, hi]
  · intro next hnext
    rw [Update_followMode, hnext]
    simp [hmove]

/-- Witness for C5 (amended): the key "down" moves the selection of `afterABCD` to index 1
and the mode is still on; the item E processed next returns a frozen model. -/
theorem freeze_on_next_step_witness :
    afterABCD.followMode = true ∧
    demo.list.Index afterABCD.eventList.widget = 0 ∧
    demo.list.Index (Update demo afterABCD (.KeyMsg "down")).eventList.widget ≠ 0 ∧
    (Update demo afterABCD (.KeyMsg "down")).followMode = true ∧
    (Update demo (Update demo afterABCD (.KeyMsg "down")) (.item (mkItem "E"))).followMode
      = false :=
  ⟨by decide, by decide, by decide,
   (freeze_on_next_step demo afterABCD (.KeyMsg "down") (by decide) (by decide)
      (by decide)).1,
   (freeze_on_next_step demo afterABCD (.KeyMsg "down") (by decide) (by decide)
      (by decide)).2 (.item (mkItem "E")) rfl⟩

/-- The enable-follow branch returns the model of lines 173-175: mode on, selection
reset, and the title as lines 142-146 set it before the key was looked at. -/
theorem Update_enableFollow (D : Deps W V) (m : model W V) (k : String)
    (hnf : D.list.FilterState m.eventList.widget ≠ FilterState.Filtering)
    (hk : Matches k m.keys.enableFollow = true) :
    (Update D m (.KeyMsg k)).followMode = true ∧
    (Update D m (.KeyMsg k)).eventList.widget = D.list.ResetSelected m.eventList.widget ∧
    (Update D m (.KeyMsg k)).eventList.Title = (refreshMode D m).eventList.Title := by
  have hd : dispatch D (refreshMode D m) (.KeyMsg k) =
      ({ refreshMode D m with
          followMode := true,
          eventList := { (refreshMode D m).eventList with
            widget := D.list.ResetSelected (refreshMode D m).eventList.widget } }, true) := by
    simp only [dispatch, refreshMode_widget, refreshMode_keys, hnf, hk, if_true, if_false]
  rw [Update_of_dispatch_true D m _ _ hd]
  exact ⟨rfl, by simp only [refreshMode_widget], rfl⟩

/-- Claim C6: when the list widget is not filtering (whatever the mode and the selection
index), processing the enable-follow key returns a model in follow mode whose list widget
is the old one after `ResetSelected`; for a widget whose `ResetSelected` puts the index at
0, the selection index of the returned model is 0. -/
theorem enable_follow_transition (D : Deps W V) (m : model W V) (k : String)
    (hreset : ∀ w, D.list.Index (D.list.ResetSelected w) = 0)
    (hnf : D.list.FilterState m.eventList.widget ≠ FilterState.Filtering)
    (hk : Matches k m.keys.enableFollow = true) :
    (Update D m (.KeyMsg k)).followMode = true ∧
    (Update D m (.KeyMsg k)).eventList.widget = D.list.ResetSelected m.eventList.widget ∧
    D.list.Index (Update D m (.KeyMsg k)).eventList.widget = 0 := by
  obtain ⟨h1, h2, _⟩ := Update_enableFollow D m k hnf hk
  exact ⟨h1, h2, by rw [h2, hreset]⟩

/-- Witness for C6: the frozen state `frozenE` (index 1) receives the key "f". -/
theorem enable_follow_transition_witness :
    frozenE.followMode = false ∧
    demo.list.Index frozenE.eventList.widget = 1 ∧
    demo.list.FilterState frozenE.eventList.widget ≠ FilterState.Filtering ∧
    Matches "f" frozenE.keys.enableFollow = true ∧
    (Update demo frozenE (.KeyMsg "f")).followMode = true ∧
    demo.list.Index (Update demo frozenE (.KeyMsg "f")).eventList.widget = 0 :=
  ⟨by decide, by decide, by decide, by decide,
   (enable_follow_transition demo frozenE "f" (fun _ => rfl) (by decide) (by decide)).1,
   (enable_follow_transition demo frozenE "f" (fun _ => rfl) (by decide) (by decide)).2.2⟩

/-- Claim C7, the code at the failing input: the frozen state `frozenE` receives the
enable-follow key "f" outside filtering; the returned model is in follow mode and its
title is still "Events (frozen)". -/
theorem title_stale_after_enable_follow :
    frozenE.followMode = false ∧
    demo.list.FilterState frozenE.eventList.widget = FilterState.Unfiltered ∧
    (Update demo frozenE (.KeyMsg "f")).followMode = true ∧
    (Update demo frozenE (.KeyMsg "f")).eventList.Title = "Events (frozen)" := by
  decide

/-- Title returned by `Update` on every path but the enable-follow branch: it is
"Events (frozen)" when the returned mode is off and "Events" when it is on. -/
theorem Update_title_agrees (D : Deps W V) (m : model W V) (msg : Msg)
    (h : takesEnableFollow D m msg = false) :
    (Update D m msg).eventList.Title =
      if (Update D m msg).followMode then "Events" else "Events (frozen)" := by
  have ht : (dispatch D (refreshMode D m) msg).1.eventList.Title
      = (refreshMode D m).eventList.Title := by
    cases msg with
    | item x => simp only [dispatch]; split_ifs <;> rfl
    | WindowSizeMsg wd ht => rfl
    | KeyMsg k => simp only [dispatch]; split_ifs <;> rfl
    | other t => rfl
  rw [(Update_fields D m _).2.2.2.2.2.2, ht, refreshMode_title, Update_followMode, h,
    refreshMode_followMode]
  simp

end Tui

namespace Tui

variable {W V : Type}

/-! ## The detail pane -/

/-- The replacement performed by `Update` on the pattern backslash, n is the rewrapping the
specification describes. -/
theorem replaceFrom_eq_rewrapSpec (s : List Char) :
    replaceFrom ['\\', 'n'] [' ', ' ', '\\', '\n'] 0 s = rewrapSpec s := by
  induction s using rewrapSpec.induct with
  | case1 => rfl
  | case2 c => simp [replaceFrom, startsWith, rewrapSpec]
  | case3 a b rest h ih =>
    obtain ⟨ha, hb⟩ := h
    subst ha; subst hb
    simp [replaceFrom, startsWith, rewrapSpec, ih]
  | case4 a b rest h ih =>
    have hs : startsWith ['\\', 'n'] (a :: b :: rest) = false := by
      simp only [startsWith, Bool.and_true]
      by_contra hc
      simp only [Bool.not_eq_false, Bool.and_eq_true, decide_eq_true_eq] at hc
      exact h ⟨hc.1.symm, hc.2.symm⟩
    rw [replaceFrom, hs, rewrapSpec, if_neg h, ih]
    simp

/-- The text computed at lines 190-193 and 200-203 is the pre-highlight text of the
specification. -/
theorem wrapText_eq_spec (b : Bool) (s : String) : wrapText b s = preHighlightSpec b s := by
  unfold wrapText preHighlightSpec ReplaceAll
  cases b
  · rfl
  · simp only [if_true]
    exact congrArg String.mk (replaceFrom_eq_rewrapSpec s.data)

/-- The flag of the type switch is set exactly on the enable-follow branch. -/
theorem dispatch_snd (D : Deps W V) (m : model W V) (msg : Msg) :
    (dispatch D m msg).2 = takesEnableFollow D m msg := by
  cases msg with
  | item x => rfl
  | WindowSizeMsg wd ht => rfl
  | KeyMsg k =>
    simp only [dispatch, takesEnableFollow]
    by_cases hf : D.list.FilterState m.eventList.widget = FilterState.Filtering
    · simp [hf]
    · by_cases hk : Matches k m.keys.enableFollow = true
      · simp [hf, hk]
      · have hk0 : Matches k m.keys.enableFollow = false := by simpa using hk
        simp only [hf, hk0, if_false, Bool.and_false, Bool.false_eq_true]
        split_ifs <;> rfl
  | other t => rfl

/-- Whether the enable-follow branch is taken does not depend on lines 138-146. -/
theorem takesEnableFollow_refreshMode (D : Deps W V) (m : model W V) (msg : Msg) :
    takesEnableFollow D (refreshMode D m) msg = takesEnableFollow D m msg := by
  cases msg <;> simp only [takesEnableFollow, refreshMode_widget, refreshMode_keys]

/-- The type switch never touches the viewport. -/
theorem dispatch_rawView (D : Deps W V) (m : model W V) (msg : Msg) :
    (dispatch D m msg).1.rawView = m.rawView := by
  cases msg <;> simp only [dispatch] <;> (try split_ifs) <;> rfl

/-- Shape of the result of `Update` off the enable-follow branch. -/
theorem Update_of_not_enableFollow (D : Deps W V) (m : model W V) (msg : Msg)
    (h : takesEnableFollow D m msg = false) :
    Update D m msg =
      { renderDetail D
          { (dispatch D (refreshMode D m) msg).1 with
            eventList := { (dispatch D (refreshMode D m) msg).1.eventList with
              widget := D.list.Update
                (dispatch D (refreshMode D m) msg).1.eventList.widget msg } } with
        rawView := D.view.Update (renderDetail D
          { (dispatch D (refreshMode D m) msg).1 with
            eventList := { (dispatch D (refreshMode D m) msg).1.eventList with
              widget := D.list.Update
                (dispatch D (refreshMode D m) msg).1.eventList.widget msg } }).rawView msg } := by
  have hd : dispatch D (refreshMode D m) msg = ((dispatch D (refreshMode D m) msg).1, false) := by
    have := dispatch_snd D (refreshMode D m) msg
    rw [takesEnableFollow_refreshMode, h] at this
    rw [← this]
  exact Update_of_dispatch_false D m _ msg hd

/-- Detail pane after `renderDetail` when the highlighter fails: the text itself. -/
theorem renderDetail_fallback (D : Deps W V) (m : model W V) (sel : item) (e : String)
    (hsel : D.list.SelectedItem m.eventList.widget = some sel) :
    (m.outputFormat = D.YAML →
      D.Highlight (wrapText m.wordWrap sel.eventYAML) "yaml" theme = .error e →
      (renderDetail D m).sideInfos = wrapText m.wordWrap sel.eventYAML ∧
      (renderDetail D m).rawView
        = D.view.SetContent m.rawView (wrapText m.wordWrap sel.eventYAML)) ∧
    (m.outputFormat = D.JSON → D.JSON ≠ D.YAML →
      D.Highlight (wrapText m.wordWrap sel.eventJSON) "json" theme = .error e →
      (renderDetail D m).sideInfos = wrapText m.wordWrap sel.eventJSON ∧
      (renderDetail D m).rawView
        = D.view.SetContent m.rawView (wrapText m.wordWrap sel.eventJSON)) := by
  constructor
  · intro hy herr
    simp only [renderDetail, hsel, hy, if_true, showText, herr, and_self]
  · intro hj hne herr
    simp only [renderDetail, hsel, hj, hne, if_true, if_false, showText, herr, and_self]

/-- Claim C8: whenever `Update` refreshes the detail pane (every path but the early return
of the enable-follow branch), for the item selected then, either format and either
word-wrap setting: if `Highlight` returns an error, the content set on the viewport, and
`sideInfos`, is the pre-highlight text: the JSON text (format JSON) or YAML text (format
YAML) of the item, verbatim when word wrap is off and rewrapped when it is on.  The
viewport then only receives the message. -/
theorem highlighter_fallback (D : Deps W V) (m : model W V) (msg : Msg) (sel : item)
    (e : String) (hne : D.JSON ≠ D.YAML)
    (hpath : takesEnableFollow D m msg = false)
    (hsel : D.list.SelectedItem (Update D m msg).eventList.widget = some sel) :
    ((Update D m msg).outputFormat = D.JSON →
      D.Highlight (preHighlightSpec (Update D m msg).wordWrap sel.eventJSON) "json" theme
        = .error e →
      (Update D m msg).sideInfos
        = preHighlightSpec (Update D m msg).wordWrap sel.eventJSON ∧
      (Update D m msg).rawView
        = D.view.Update (D.view.SetContent m.rawView
            (preHighlightSpec (Update D m msg).wordWrap sel.eventJSON)) msg) ∧
    ((Update D m msg).outputFormat = D.YAML →
      D.Highlight (preHighlightSpec (Update D m msg).wordWrap sel.eventYAML) "yaml" theme
        = .error e →
      (Update D m msg).sideInfos
        = preHighlightSpec (Update D m msg).wordWrap sel.eventYAML ∧
      (Update D m msg).rawView
        = D.view.Update (D.view.SetContent m.rawView
            (preHighlightSpec (Update D m msg).wordWrap sel.eventYAML)) msg) := by
  have hU := Update_of_not_enableFollow D m msg hpath
  generalize hm2 : ({ (dispatch D (refreshMode D m) msg).1 with
      eventList := { (dispatch D (refreshMode D m) msg).1.eventList with
        widget := D.list.Update
          (dispatch D (refreshMode D m) msg).1.eventList.widget msg } } : model W V) = m2 at hU
  have hraw : m2.rawView = m.rawView := by
    rw [← hm2]; simp only [dispatch_rawView, refreshMode_rawView]
  have hw : (Update D m msg).eventList.widget = m2.eventList.widget := by
    rw [hU]; simp only [renderDetail_eventList]
  have hfmt : (Update D m msg).outputFormat = m2.outputFormat := by
    rw [hU]; simp only [renderDetail_outputFormat]
  have hwrap : (Update D m msg).wordWrap = m2.wordWrap := by
    rw [hU]; simp only [renderDetail_wordWrap]
  have hside : (Update D m msg).sideInfos = (renderDetail D m2).sideInfos := by rw [hU]
  have hview : (Update D m msg).rawView = D.view.Update (renderDetail D m2).rawView msg := by
    rw [hU]
  rw [hw] at hsel
  have hfb := renderDetail_fallback D m2 sel e hsel
  rw [hfmt, hwrap, hside, hview]
  simp only [← wrapText_eq_spec]
  constructor
  · intro hj herr
    obtain ⟨h1, h2⟩ := hfb.2 hj hne herr
    rw [h1, h2, hraw]
    exact ⟨rfl, rfl⟩
  · intro hy herr
    obtain ⟨h1, h2⟩ := hfb.1 hy herr
    rw [h1, h2, hraw]
    exact ⟨rfl, rfl⟩

/-- Witness for C8: the word-wrap key in `afterABCD` with a failing highlighter; the item D
is selected, the format is JSON, and the viewport shows its rewrapped JSON text. -/
theorem highlighter_fallback_witness :
    demo.JSON ≠ demo.YAML ∧
    takesEnableFollow demo afterABCD (.KeyMsg "w") = false ∧
    demo.list.SelectedItem (Update demo afterABCD (.KeyMsg "w")).eventList.widget
      = some (mkItem "D") ∧
    (Update demo afterABCD (.KeyMsg "w")).wordWrap = true ∧
    (mkItem "D").eventJSON = "D\\nj" ∧
    (Update demo afterABCD (.KeyMsg "w")).rawView = "D  \\\nj" ∧
    (Update demo afterABCD (.KeyMsg "w")).rawView
      = demo.view.Update (demo.view.SetContent afterABCD.rawView
          (preHighlightSpec (Update demo afterABCD (.KeyMsg "w")).wordWrap
            (mkItem "D").eventJSON)) (.KeyMsg "w") :=
  ⟨by decide, by decide, by decide, by decide, by decide, by decide,
   ((highlighter_fallback demo afterABCD (.KeyMsg "w") (mkItem "D") "highlighter unavailable"
      (by decide) (by decide) (by decide)).1 (by decide) rfl).2⟩

end Tui

namespace Tui

variable {W V : Type}

/-! ## Key bindings -/

/-- List widget after a key message off the enable-follow branch: the old widget given
the key, with no other call in between. -/
theorem Update_widget_key (D : Deps W V) (m : model W V) (k : String)
    (h : takesEnableFollow D m (.KeyMsg k) = false) :
    (Update D m (.KeyMsg k)).eventList.widget
      = D.list.Update m.eventList.widget (.KeyMsg k) := by
  rw [Update_of_not_enableFollow D m _ h]
  simp only [renderDetail_eventList]
  have hd : (dispatch D (refreshMode D m) (.KeyMsg k)).1.eventList.widget
      = (refreshMode D m).eventList.widget := by
    have h2 := dispatch_snd D (refreshMode D m) (.KeyMsg k)
    rw [takesEnableFollow_refreshMode, h] at h2
    revert h2
    simp only [dispatch]
    split_ifs <;> simp
  rw [hd, refreshMode_widget]

/-- A key message received while the list is filtering leaves the type switch at once:
the model of lines 138-146 goes on to the widgets unchanged. -/
theorem dispatch_filtering (D : Deps W V) (m : model W V) (k : String)
    (hf : D.list.FilterState m.eventList.widget = FilterState.Filtering) :
    dispatch D m (.KeyMsg k) = (m, false) := by
  simp only [dispatch, hf, if_true]

/-- Format after a key message, by the branch of the key switch that is taken. -/
theorem Update_outputFormat_key (D : Deps W V) (m : model W V) (k : String) :
    (Update D m (.KeyMsg k)).outputFormat =
      if D.list.FilterState m.eventList.widget ≠ FilterState.Filtering ∧
          Matches k m.keys.enableFollow = false ∧ Matches k m.keys.toggleWordwrap = false ∧
          Matches k m.keys.toggleJSONYAML = true
      then Int.tmod (m.outputFormat + 1) D.nbFormat else m.outputFormat := by
  rw [(Update_fields D m _).2.2.2.1]
  simp only [dispatch, refreshMode_widget, refreshMode_keys]
  by_cases hf : D.list.FilterState m.eventList.widget = FilterState.Filtering
  · simp [hf, refreshMode_outputFormat]
  · cases h1 : Matches k m.keys.enableFollow <;> cases h2 : Matches k m.keys.toggleWordwrap <;>
      cases h3 : Matches k m.keys.toggleJSONYAML <;> simp [hf, refreshMode_outputFormat]

/-- Format after a message that is not a key: unchanged. -/
theorem Update_outputFormat_not_key (D : Deps W V) (m : model W V) (msg : Msg)
    (h : ∀ k, msg ≠ .KeyMsg k) : (Update D m msg).outputFormat = m.outputFormat := by
  rw [(Update_fields D m _).2.2.2.1]
  cases msg with
  | item x => simp only [dispatch]; split_ifs <;> simp [refreshMode_outputFormat]
  | WindowSizeMsg wd ht => simp [dispatch, refreshMode_outputFormat]
  | KeyMsg k => exact absurd rfl (h k)
  | other t => simp [dispatch, refreshMode_outputFormat]

/-- With the enumerated constants, a format that is JSON or YAML stays JSON or YAML under
any `Update` call. -/
theorem Update_preserves_format (D : Deps W V) (hc : D.formatsEnumerated) (m : model W V)
    (msg : Msg) (h : m.outputFormat = D.JSON ∨ m.outputFormat = D.YAML) :
    (Update D m msg).outputFormat = D.JSON ∨ (Update D m msg).outputFormat = D.YAML := by
  cases msg with
  | KeyMsg k =>
    rw [Update_outputFormat_key]
    split_ifs
    · obtain ⟨hn, hjy⟩ := hc
      rw [hn]
      rcases hjy with ⟨hj, hy⟩ | ⟨hj, hy⟩ <;> rcases h with h | h <;>
        rw [h, hj, hy] <;> decide
    · exact h
  | item x => rw [Update_outputFormat_not_key D m _ (fun k => by simp)]; exact h
  | WindowSizeMsg wd ht => rw [Update_outputFormat_not_key D m _ (fun k => by simp)]; exact h
  | other t => rw [Update_outputFormat_not_key D m _ (fun k => by simp)]; exact h

/-- Every state reached from `NewModel` has the key map of `newListKeyMap` and a format
that is JSON or YAML. -/
theorem run_keys_format (D : Deps W V) (hc : D.formatsEnumerated) (msgs : List Msg) :
    ∀ m : model W V, m.keys = newListKeyMap →
      (m.outputFormat = D.JSON ∨ m.outputFormat = D.YAML) →
      (run D m msgs).keys = newListKeyMap ∧
      ((run D m msgs).outputFormat = D.JSON ∨ (run D m msgs).outputFormat = D.YAML) := by
  induction msgs with
  | nil => intro m hk hf; exact ⟨hk, hf⟩
  | cons msg rest ih =>
    intro m hk hf
    exact ih (Update D m msg) (by rw [Update_keys, hk]) (Update_preserves_format D hc m msg hf)

/-- A key matching the toggle binding of `newListKeyMap` matches neither of the other
two bindings. -/
theorem toggle_key_only (k : String) (hk : Matches k newListKeyMap.toggleJSONYAML = true) :
    Matches k newListKeyMap.enableFollow = false ∧
    Matches k newListKeyMap.toggleWordwrap = false := by
  have hkm : k = "m" := by simpa [Matches, newListKeyMap] using hk
  subst hkm
  exact ⟨by decide, by decide⟩

/-- One toggle-format key outside filtering, in a state with the key map of
`newListKeyMap`: the format becomes `(outputFormat + 1) % nbFormat`, the key map is kept
and the list widget is the old one given the key. -/
theorem Update_toggle (D : Deps W V) (m : model W V) (k : String)
    (hkeys : m.keys = newListKeyMap)
    (hk : Matches k newListKeyMap.toggleJSONYAML = true)
    (hnf : D.list.FilterState m.eventList.widget ≠ FilterState.Filtering) :
    (Update D m (.KeyMsg k)).outputFormat = Int.tmod (m.outputFormat + 1) D.nbFormat ∧
    (Update D m (.KeyMsg k)).keys = newListKeyMap ∧
    (Update D m (.KeyMsg k)).eventList.widget
      = D.list.Update m.eventList.widget (.KeyMsg k) := by
  obtain ⟨h1, h2⟩ := toggle_key_only k hk
  refine ⟨?_, by rw [Update_keys, hkeys], ?_⟩
  · rw [Update_outputFormat_key, hkeys, if_pos ⟨hnf, h1, h2, hk⟩]
  · apply Update_widget_key
    simp only [takesEnableFollow, hkeys, h1, Bool.and_false]

/-- Two toggles in a row bring the format back, when the list is not filtering and the
widget does not start filtering on the toggle key. -/
theorem run_even_toggles (D : Deps W V) (hc : D.formatsEnumerated) (k : String)
    (hk : Matches k newListKeyMap.toggleJSONYAML = true)
    (hw : ∀ w, D.list.FilterState w ≠ FilterState.Filtering →
      D.list.FilterState (D.list.Update w (.KeyMsg k)) ≠ FilterState.Filtering)
    (j : Nat) :
    ∀ m : model W V, m.keys = newListKeyMap →
      (m.outputFormat = D.JSON ∨ m.outputFormat = D.YAML) →
      D.list.FilterState m.eventList.widget ≠ FilterState.Filtering →
      (run D m (List.replicate (2 * j) (.KeyMsg k))).outputFormat = m.outputFormat := by
  induction j with
  | zero => intro m _ _ _; rfl
  | succ j ih =>
    intro m hkeys hf hnf
    have hrep : List.replicate (2 * (j + 1)) (Msg.KeyMsg k)
        = Msg.KeyMsg k :: Msg.KeyMsg k :: List.replicate (2 * j) (Msg.KeyMsg k) := by
      rw [show 2 * (j + 1) = 2 * j + 1 + 1 by ring, List.replicate_succ, List.replicate_succ]
    obtain ⟨a1, a2, a3⟩ := Update_toggle D m k hkeys hk hnf
    have hnf1 : D.list.FilterState (Update D m (.KeyMsg k)).eventList.widget
        ≠ FilterState.Filtering := by rw [a3]; exact hw _ hnf
    obtain ⟨b1, b2, b3⟩ := Update_toggle D (Update D m (.KeyMsg k)) k a2 hk hnf1
    have hnf2 : D.list.FilterState
        (Update D (Update D m (.KeyMsg k)) (.KeyMsg k)).eventList.widget
        ≠ FilterState.Filtering := by rw [b3]; exact hw _ hnf1
    have hback : (Update D (Update D m (.KeyMsg k)) (.KeyMsg k)).outputFormat
        = m.outputFormat := by
      rw [b1, a1]
      obtain ⟨hn, hjy⟩ := hc
      rw [hn]
      rcases hjy with ⟨hj, hy⟩ | ⟨hj, hy⟩ <;> rcases hf with h | h <;>
        rw [h] <;> (try rw [hj]) <;> (try rw [hy]) <;> decide
    have := ih (Update D (Update D m (.KeyMsg k)) (.KeyMsg k)) b2 (by rw [hback]; exact hf) hnf2
    rw [hrep]
    simp only [run, List.foldl_cons] at this ⊢
    rw [this, hback]

/-- Claim C9: with JSON and YAML enumerated as 0 and 1 and `nbFormat = 2`, every state
reached from `NewModel` has the key map of `newListKeyMap` and a format that is JSON or
YAML; a toggle-format key processed there while the list is not filtering changes the
format to `(outputFormat + 1) % nbFormat`, which is the other of the two; and, for a list
widget that does not start filtering on that key, any even number of toggles returns the
format to the value it started from. -/
theorem format_toggle_two_cycle (D : Deps W V) (hc : D.formatsEnumerated) (n : Int)
    (msgs : List Msg) (k : String)
    (hk : Matches k newListKeyMap.toggleJSONYAML = true) :
    (run D (NewModel D n) msgs).keys = newListKeyMap ∧
    ((run D (NewModel D n) msgs).outputFormat = D.JSON ∨
      (run D (NewModel D n) msgs).outputFormat = D.YAML) ∧
    (D.list.FilterState (run D (NewModel D n) msgs).eventList.widget ≠ FilterState.Filtering →
      (Update D (run D (NewModel D n) msgs) (.KeyMsg k)).outputFormat
        = Int.tmod ((run D (NewModel D n) msgs).outputFormat + 1) D.nbFormat ∧
      ((run D (NewModel D n) msgs).outputFormat = D.JSON →
        (Update D (run D (NewModel D n) msgs) (.KeyMsg k)).outputFormat = D.YAML) ∧
      ((run D (NewModel D n) msgs).outputFormat = D.YAML →
        (Update D (run D (NewModel D n) msgs) (.KeyMsg k)).outputFormat = D.JSON)) ∧
    (D.list.FilterState (run D (NewModel D n) msgs).eventList.widget ≠ FilterState.Filtering →
      (∀ w, D.list.FilterState w ≠ FilterState.Filtering →
        D.list.FilterState (D.list.Update w (.KeyMsg k)) ≠ FilterState.Filtering) →
      ∀ j : Nat,
        (run D (run D (NewModel D n) msgs) (List.replicate (2 * j) (.KeyMsg k))).outputFormat
          = (run D (NewModel D n) msgs).outputFormat) := by
  have h0 : (NewModel D n).outputFormat = D.JSON ∨ (NewModel D n).outputFormat = D.YAML := by
    obtain ⟨_, hjy⟩ := hc
    rcases hjy with ⟨hj, hy⟩ | ⟨hj, hy⟩
    · left; rw [hj]; rfl
    · right; rw [hy]; rfl
  obtain ⟨hkeys, hfmt⟩ := run_keys_format D hc msgs (NewModel D n) rfl h0
  refine ⟨hkeys, hfmt, ?_, ?_⟩
  · intro hnf
    obtain ⟨a1, _, _⟩ := Update_toggle D _ k hkeys hk hnf
    refine ⟨a1, ?_, ?_⟩
    · intro hj
      rw [a1, hj]
      obtain ⟨hn, hjy⟩ := hc
      rw [hn]
      rcases hjy with ⟨hj, hy⟩ | ⟨hj, hy⟩ <;> rw [hj, hy] <;> decide
    · intro hy
      rw [a1, hy]
      obtain ⟨hn, hjy⟩ := hc
      rw [hn]
      rcases hjy with ⟨hj, hy⟩ | ⟨hj, hy⟩ <;> rw [hj, hy] <;> decide
  · intro hnf hw j
    exact run_even_toggles D hc k hk hw j _ hkeys hfmt hnf

/-- Witness for C9: in `afterABCD` the format is JSON, one key "m" makes it YAML, and four
keys "m" bring it back to JSON. -/
theorem format_toggle_two_cycle_witness :
    demo.formatsEnumerated ∧
    Matches "m" newListKeyMap.toggleJSONYAML = true ∧
    (run demo (NewModel demo 3) [.item (mkItem "A"), .KeyMsg "m"]).outputFormat = demo.YAML ∧
    (Update demo (run demo (NewModel demo 3) [.item (mkItem "A"), .KeyMsg "m"])
      (.KeyMsg "m")).outputFormat = demo.JSON ∧
    (run demo (run demo (NewModel demo 3) [.item (mkItem "A"), .KeyMsg "m"])
      (List.replicate (2 * 2) (.KeyMsg "m"))).outputFormat = demo.YAML :=
  ⟨⟨rfl, Or.inl ⟨rfl, rfl⟩⟩, by decide, by decide,
   ((format_toggle_two_cycle demo ⟨rfl, Or.inl ⟨rfl, rfl⟩⟩ 3
      [.item (mkItem "A"), .KeyMsg "m"] "m" (by decide)).2.2.1 (by decide)).2.2 (by decide),
   by decide⟩

/-- Claim C10: when the list widget reports that it is filtering, `Update` on any key
message (the keys of the three bindings included) leaves `wordWrap` and `outputFormat`
unchanged, returns follow mode on only if it was on already with the selection at the top,
and hands the list widget the key message and nothing else: no `ResetSelected`. -/
theorem bindings_suppressed_while_filtering (D : Deps W V) (m : model W V) (k : String)
    (hf : D.list.FilterState m.eventList.widget = FilterState.Filtering) :
    (Update D m (.KeyMsg k)).wordWrap = m.wordWrap ∧
    (Update D m (.KeyMsg k)).outputFormat = m.outputFormat ∧
    (Update D m (.KeyMsg k)).followMode
      = (m.followMode && decide (D.list.Index m.eventList.widget = 0)) ∧
    ((Update D m (.KeyMsg k)).followMode = true → m.followMode = true) ∧
    (Update D m (.KeyMsg k)).eventList.widget
      = D.list.Update m.eventList.widget (.KeyMsg k) := by
  have hte : takesEnableFollow D m (.KeyMsg k) = false := by
    simp [takesEnableFollow, hf]
  have hd := dispatch_filtering D (refreshMode D m) k (by rw [refreshMode_widget]; exact hf)
  have hmode : (Update D m (.KeyMsg k)).followMode
      = (m.followMode && decide (D.list.Index m.eventList.widget = 0)) := by
    rw [Update_followMode, hte]; simp
  refine ⟨?_, ?_, hmode, ?_, Update_widget_key D m k hte⟩
  · rw [(Update_fields D m _).2.2.2.2.2.1, hd, refreshMode_wordWrap]
  · rw [(Update_fields D m _).2.2.2.1, hd, refreshMode_outputFormat]
  · intro h
    rw [hmode] at h
    simp only [Bool.and_eq_true] at h
    exact h.1

/-- Witness for C10: with the filter prompt open in `filteringABCD`, the key "f" reaches
the list widget, which is left with its selection, and the key "m" leaves the format
alone. -/
theorem bindings_suppressed_while_filtering_witness :
    demo.list.FilterState filteringABCD.eventList.widget = FilterState.Filtering ∧
    (Update demo filteringABCD (.KeyMsg "f")).eventList.widget
      = demo.list.Update filteringABCD.eventList.widget (.KeyMsg "f") ∧
    (Update demo filteringABCD (.KeyMsg "m")).outputFormat = filteringABCD.outputFormat ∧
    (Update demo filteringABCD (.KeyMsg "w")).wordWrap = filteringABCD.wordWrap :=
  ⟨by decide,
   (bindings_suppressed_while_filtering demo filteringABCD "f" (by decide)).2.2.2.2,
   (bindings_suppressed_while_filtering demo filteringABCD "m" (by decide)).2.1,
   (bindings_suppressed_while_filtering demo filteringABCD "w" (by decide)).1⟩

end Tui
